import Mathlib

/-!
Verification of `gitlab_repo_import.py` (gitlab-scripts).

The script imports existing bare git repositories into GitLab: for each
input path it copies the repo under `<repos_dir>/<group>/`, fixes
ownership, optionally renames `hooks` to `custom_hooks`, runs the
`gitlab-rake` import command, looks the project up through the API and
reconciles project settings.

We shallowly embed the script: Python strings and paths become `List Char`,
filesystem and remote outcomes become explicit flags in an environment
record, side effects become fields of a trace record, and uncaught Python
exceptions become `Except.error`.
-/

namespace GitlabRepoImport

/-- Python strings / filesystem paths, embedded as lists of characters. -/
abbrev PStr := List Char

/-- The path separator. -/
def slashC : Char := '/'

/-- `os.path.join(a, b)` for the posix flavour used by the script (second
component relative, as at every call site). -/
def pJoin (a b : PStr) : PStr := a ++ slashC :: b

/-- `os.path.basename(p)`: everything after the last slash. -/
def pBasename (p : PStr) : PStr :=
  (p.reverse.takeWhile (fun c => c != slashC)).reverse

/-- The four characters of the `.git` extension. -/
def gitExt : PStr := ['.', 'g', 'i', 't']

/-- `repo_name.endswith('.git')` (gitlab_repo_import.py line 193). -/
def endsWithGit (s : PStr) : Bool := s.reverse.take 4 == gitExt.reverse

/-- `re.sub('\.git$', '', repo_name)` under the precondition that
`repo_name` ends in `.git` (line 197): strip the last four characters. -/
def dropGitSuffix (s : PStr) : PStr := (s.reverse.drop 4).reverse

/-- The destination directory entry name computed by `do_repo`
(lines 192-197): the basename, with `.git` appended when absent. -/
def repo_name_of (repo_path : PStr) : PStr :=
  let rn := pBasename repo_path
  if endsWithGit rn = false then rn ++ gitExt else rn

/-- The project name computed by `do_repo` (lines 192-197): the basename,
with one trailing `.git` stripped when present. -/
def project_name_of (repo_path : PStr) : PStr :=
  let rn := pBasename repo_path
  if endsWithGit rn = false then rn else dropGitSuffix rn

/-- `dest_path = os.path.join(create_path, repo_name)` (line 198). -/
def dest_path_of (create_path repo_path : PStr) : PStr :=
  pJoin create_path (repo_name_of repo_path)

/-- The spec's phrase: the basename without its trailing `.git` suffix. -/
def basename_stem (repo_path : PStr) : PStr :=
  let b := pBasename repo_path
  if endsWithGit b then dropGitSuffix b else b

theorem dropGitSuffix_append_gitExt (s : PStr) (h : endsWithGit s = true) :
    dropGitSuffix s ++ gitExt = s := by
  unfold endsWithGit at h
  have htake : s.reverse.take 4 = gitExt.reverse := eq_of_beq h
  have hs : s = (s.reverse.take 4 ++ s.reverse.drop 4).reverse := by
    rw [List.take_append_drop, List.reverse_reverse]
  calc dropGitSuffix s ++ gitExt
      = (s.reverse.drop 4).reverse ++ gitExt := rfl
    _ = (s.reverse.drop 4).reverse ++ (gitExt.reverse).reverse := by
        rw [List.reverse_reverse]
    _ = (gitExt.reverse ++ s.reverse.drop 4).reverse := by
        rw [List.reverse_append]
    _ = (s.reverse.take 4 ++ s.reverse.drop 4).reverse := by rw [htake]
    _ = s := hs.symm

/-- C5: for every create path and input repo path, the destination is
`<create_path>/<stem>.git` and the project name is `<stem>`, where `<stem>`
is the basename without a trailing `.git` - whether or not the basename
already carries the suffix. -/
theorem do_repo_naming (create_path repo_path : PStr) :
    dest_path_of create_path repo_path
        = pJoin create_path (basename_stem repo_path ++ gitExt) ∧
      project_name_of repo_path = basename_stem repo_path := by
  unfold dest_path_of repo_name_of project_name_of basename_stem
  cases h : endsWithGit (pBasename repo_path) with
  | false => simp [h]
  | true => simp [h, dropGitSuffix_append_gitExt _ h]

/-- Python truthiness of a `do_repo` return value: `do_repo` returns
`True`, `False`, or (line 232) `None`, and `run` tests the result with
`if self.do_repo(...)`. -/
def pyTruthy : Option Bool → Bool
  | Option.some b => b
  | Option.none => false

/-- The tally and call record of the loop of `run` (lines 158-170). -/
structure RunResult where
  succeeded : Nat
  failed : Nat
  /-- the repos handed to `do_repo`, in order -/
  processed : List PStr
  deriving DecidableEq

/-- The loop of `run` (lines 158-170): skip paths for which
`os.path.exists` is false, otherwise call `do_repo` and bump one counter
by its truthiness. `exfs` is filesystem existence at check time, `dorepo`
abstracts the (non-crashing) result of `do_repo` for each path. -/
def runLoop (exfs : PStr → Bool) (dorepo : PStr → Option Bool) :
    List PStr → RunResult
  | [] => ⟨0, 0, []⟩
  | r :: rest =>
      if exfs r = false then runLoop exfs dorepo rest
      else
        let res := runLoop exfs dorepo rest
        if pyTruthy (dorepo r) then
          ⟨res.succeeded + 1, res.failed, r :: res.processed⟩
        else
          ⟨res.succeeded, res.failed + 1, r :: res.processed⟩

/-- `run` (lines 146-174): abort with `SystemExit(1)` when the group path
does not exist; otherwise run the loop and exit with code 1 when any repo
failed, 0 otherwise. -/
def run (groupPathExists : Bool) (exfs : PStr → Bool)
    (dorepo : PStr → Option Bool) (repo_paths : List PStr) :
    Except Unit (RunResult × Nat) :=
  if groupPathExists = false then Except.error ()
  else
    let res := runLoop exfs dorepo repo_paths
    Except.ok (res, if res.failed > 0 then 1 else 0)

theorem runLoop_processed (exfs : PStr → Bool) (dorepo : PStr → Option Bool)
    (paths : List PStr) :
    (runLoop exfs dorepo paths).processed = paths.filter exfs := by
  induction paths with
  | nil => rfl
  | cons r rest ih =>
      unfold runLoop
      cases h : exfs r with
      | false => simp [h, ih, List.filter_cons]
      | true =>
          cases hd : pyTruthy (dorepo r) <;>
            simp [h, hd, ih, List.filter_cons]

theorem runLoop_count (exfs : PStr → Bool) (dorepo : PStr → Option Bool)
    (paths : List PStr) :
    (runLoop exfs dorepo paths).succeeded + (runLoop exfs dorepo paths).failed
      = (paths.filter exfs).length := by
  induction paths with
  | nil => rfl
  | cons r rest ih =>
      unfold runLoop
      cases h : exfs r with
      | false => simp [h, ih, List.filter_cons]
      | true =>
          cases hd : pyTruthy (dorepo r) <;>
            simp [h, hd, List.filter_cons, ← ih] <;> omega

/-- C10: when the loop of `run` reaches its final tally, succeeded plus
failed equals the number of input paths that existed when checked; a
missing path is handed to `do_repo` by neither branch and bumps neither
counter, and each existing path is processed once and bumps exactly one
counter. -/
theorem run_tally_invariant (exfs : PStr → Bool)
    (dorepo : PStr → Option Bool) (paths : List PStr) :
    (runLoop exfs dorepo paths).succeeded + (runLoop exfs dorepo paths).failed
        = (paths.filter exfs).length ∧
      (runLoop exfs dorepo paths).processed = paths.filter exfs :=
  ⟨runLoop_count exfs dorepo paths, runLoop_processed exfs dorepo paths⟩

/-- C1, counterexample: a single input path that does not exist is skipped
but is NOT reported as a failure in the final tally - the run ends with
`failed = 0` and exit code 0, contradicting the claim that each missing
path is counted as a failure and forces a non-zero exit. -/
theorem run_missing_path_not_failed :
    run true (fun _ => false) (fun _ => Option.some true) [['a']]
      = Except.ok (⟨0, 0, []⟩, 0) := by rfl

/-- C1 (amended): a missing input path is skipped - it is never handed to
`do_repo` (so never copied or imported), the loop continues with the
remaining paths, and the missing path increments neither counter of the
tally; the run exits non-zero exactly when some existing, processed repo
failed. -/
theorem run_skips_missing_paths (exfs : PStr → Bool)
    (dorepo : PStr → Option Bool) (paths : List PStr)
    (res : RunResult) (code : Nat)
    (h : run true exfs dorepo paths = Except.ok (res, code)) :
    res.processed = paths.filter exfs ∧
      res.succeeded + res.failed = (paths.filter exfs).length ∧
      (code ≠ 0 ↔ 0 < res.failed) := by
  have hres : res = runLoop exfs dorepo paths ∧
      code = if (runLoop exfs dorepo paths).failed > 0 then 1 else 0 := by
    simpa [run] using h.symm
  rcases hres with ⟨h1, h2⟩
  subst h1
  refine ⟨runLoop_processed exfs dorepo paths,
    runLoop_count exfs dorepo paths, ?_⟩
  subst h2
  by_cases hf : 0 < (runLoop exfs dorepo paths).failed <;> simp [hf]

/-- C1 witness: a run over one missing and two existing paths (one
succeeding, one failing) processes only the two existing paths, tallies
1 succeeded and 1 failed, and exits non-zero. -/
theorem run_skips_missing_paths_witness :
    (RunResult.mk 1 1 [['b'], ['c']]).processed
        = ([['a'], ['b'], ['c']] : List PStr).filter (fun p => p != ['a']) ∧
      (RunResult.mk 1 1 [['b'], ['c']]).succeeded
          + (RunResult.mk 1 1 [['b'], ['c']]).failed
        = (([['a'], ['b'], ['c']] : List PStr).filter
            (fun p => p != ['a'])).length ∧
      ((1 : Nat) ≠ 0 ↔ 0 < (RunResult.mk 1 1 [['b'], ['c']]).failed) :=
  run_skips_missing_paths (fun p => p != ['a'])
    (fun p => Option.some (p == ['b'])) [['a'], ['b'], ['c']]
    ⟨1, 1, [['b'], ['c']]⟩ 1 (by rfl)

/-- `path.startswith(p)` on our character-list strings. -/
def strStartsWith : PStr → PStr → Bool
  | _, [] => true
  | [], _ :: _ => false
  | c :: s, d :: t => c == d && strStartsWith s t

/-- `self.refs_remotes_path = os.path.join(repo_path, 'refs', 'remotes')`
(line 205). -/
def refsRemotesPathOf (repo_path : PStr) : PStr :=
  pJoin (pJoin repo_path ['r', 'e', 'f', 's']) ['r', 'e', 'm', 'o', 't', 'e', 's']

/-- `ignore_files_callback` (lines 176-187): returns the items to skip.
An item is appended when broken-link filtering is on and its joined path
does not exist, or else when refs-remotes filtering is on and its joined
path starts with the stored `refs_remotes_path` string. -/
def ignore_files_callback (ignore_broken_links ignore_refs_remotes : Bool)
    (exfs : PStr → Bool) (refs_remotes_path : PStr)
    (dirname : PStr) (items : List PStr) : List PStr :=
  items.filter (fun item =>
    let path := pJoin dirname item
    if ignore_broken_links && !exfs path then true
    else ignore_refs_remotes && strStartsWith path refs_remotes_path)

/-- Modelled from the spec's words, for comparison with the code: `path`
lies under the subpath `base` when it is `base` itself or extends `base`
past a path separator. -/
def under_subpath_spec (path base : PStr) : Bool :=
  path == base || strStartsWith path (base ++ [slashC])

/-- C6, counterexample: with refs-remotes filtering on (and broken-link
filtering off), the callback excludes the entry `remotesx` of directory
`r/refs`, whose path `r/refs/remotesx` does NOT lie under the subpath
`r/refs/remotes`: the code's `startswith` test also matches sibling
entries, so the exclusion is not exactly the entries under the subpath. -/
theorem ignore_callback_excludes_sibling :
    ignore_files_callback false true (fun _ => true)
        (refsRemotesPathOf ['r']) (pJoin ['r'] ['r', 'e', 'f', 's'])
        [['r', 'e', 'm', 'o', 't', 'e', 's', 'x']]
      = [['r', 'e', 'm', 'o', 't', 'e', 's', 'x']] ∧
      under_subpath_spec
        (pJoin (pJoin ['r'] ['r', 'e', 'f', 's'])
          ['r', 'e', 'm', 'o', 't', 'e', 's', 'x'])
        (refsRemotesPathOf ['r']) = false := by decide

/-- C6 (amended): when refs-remotes filtering is set and broken-link
filtering is off, the callback excludes exactly the entries whose joined
path has the string `<repo>/refs/remotes` as a prefix - this covers every
entry under the refs/remotes subpath, but also any sibling entry of
`refs` whose name merely begins with `remotes`. -/
theorem ignore_callback_refs_remotes (exfs : PStr → Bool)
    (repo_path dirname item : PStr) (items : List PStr) :
    item ∈ ignore_files_callback false true exfs
        (refsRemotesPathOf repo_path) dirname items
      ↔ item ∈ items ∧
          strStartsWith (pJoin dirname item) (refsRemotesPathOf repo_path)
            = true := by
  simp [ignore_files_callback, List.mem_filter]

/-- The three nested key lookups that `_get_config` performs on the parsed
JSON of `gitlab-ctl show-config`; a field is `none` when its chain of
keys is absent (the `KeyError` branch). -/
structure GitlabConf where
  gitlab_shell_repos_path : Option String
  username : Option String
  group : Option String
  deriving DecidableEq

/-- The default repositories path (line 345). -/
def default_repos_path : String := "/var/opt/gitlab/git-data/repositories"

/-- `_get_config` (lines 322-362), after the config command produced
output: `json.loads` failure (`parsed = none`) raises `SystemExit(1)`;
otherwise each of the three lookups falls back to its default (`git`,
`git`, the default repositories path) when the keys are absent. Returns
`(user, group, path)`. -/
def _get_config (parsed : Option GitlabConf) :
    Except Unit (String × String × String) :=
  match parsed with
  | Option.none => Except.error ()
  | Option.some conf =>
      let path := conf.gitlab_shell_repos_path.getD default_repos_path
      let user := conf.username.getD "git"
      let grp := conf.group.getD "git"
      Except.ok (user, grp, path)

/-- C9: config discovery fails fatally exactly when the command output is
not valid JSON; on valid JSON with absent keys it returns the documented
defaults for the missing values (all three when all are missing, and only
the missing ones when others are present) and continues. -/
theorem get_config_fatal_iff_bad_json :
    (∀ parsed : Option GitlabConf,
        _get_config parsed = Except.error () ↔ parsed = Option.none) ∧
      _get_config (Option.some ⟨Option.none, Option.none, Option.none⟩)
        = Except.ok ("git", "git", default_repos_path) ∧
      _get_config (Option.some
          ⟨Option.some "/srv/repos", Option.none, Option.some "gl"⟩)
        = Except.ok ("git", "gl", "/srv/repos") := by
  refine ⟨fun parsed => ?_, rfl, rfl⟩
  cases parsed <;> simp [_get_config]

/-- The `gitlab.Project` attributes the script reads and writes. -/
structure Project where
  visibility_level : Nat
  issues_enabled : Bool
  merge_requests_enabled : Bool
  wiki_enabled : Bool
  snippets_enabled : Bool
  deriving DecidableEq

/-- The `VISIBILITY_LEVELS` dict (lines 104-108), as the partial map that
Python dict indexing consults: absent keys mean `KeyError`. -/
def VISIBILITY_LEVELS (s : String) : Option Nat :=
  if s = "private" then Option.some 0
  else if s = "internal" then Option.some 10
  else if s = "public" then Option.some 20
  else Option.none

/-- The settings dict built by `parse_args` (lines 430-438) and consumed
by `update_project_settings`: `visibility` maps to an optional string,
the four feature switches map to optional booleans (`none` is Python
`None`). -/
structure ProjectSettings where
  visibility : Option String
  issues : Option Bool
  merge_requests : Option Bool
  wiki : Option Bool
  snippets : Option Bool
  deriving DecidableEq

/-- The `setting == 'visibility'` branch (lines 290-300): Python indexes
`VISIBILITY_LEVELS[value]` unconditionally, so a `None` (or unknown)
value raises `KeyError`; otherwise the current level is compared and the
new level staged when different. State is the project plus the `changes`
flag. -/
def stageVisibility (v : Option String) (st : Project × Bool) :
    Except Unit (Project × Bool) :=
  match v with
  | Option.none => Except.error ()
  | Option.some s =>
      match VISIBILITY_LEVELS s with
      | Option.none => Except.error ()
      | Option.some lvl =>
          if st.1.visibility_level == lvl then Except.ok st
          else Except.ok ({ st.1 with visibility_level := lvl }, true)

/-- The boolean-setting branch (lines 301-310) for one recognized key:
`None` values are filtered out by `value is not None`; otherwise the
current attribute is compared and the new value staged when different. -/
def stageBool (get : Project → Bool) (set : Project → Bool → Project)
    (v : Option Bool) (st : Project × Bool) : Project × Bool :=
  match v with
  | Option.none => st
  | Option.some b => if get st.1 == b then st else (set st.1 b, true)

/-- The four boolean branches of the staging loop, in the key order of
the settings dict built by `parse_args`. -/
def stageBools (ps : ProjectSettings) (st : Project × Bool) :
    Project × Bool :=
  stageBool Project.snippets_enabled
    (fun q b => { q with snippets_enabled := b }) ps.snippets
    (stageBool Project.wiki_enabled
      (fun q b => { q with wiki_enabled := b }) ps.wiki
      (stageBool Project.merge_requests_enabled
        (fun q b => { q with merge_requests_enabled := b })
        ps.merge_requests
        (stageBool Project.issues_enabled
          (fun q b => { q with issues_enabled := b }) ps.issues st)))

/-- The staging loop of `update_project_settings` (lines 288-310) over
the five keys of the settings dict: the visibility branch may raise, the
boolean branches cannot. -/
def stageSettings (ps : ProjectSettings) (p : Project) :
    Except Unit (Project × Bool) :=
  (stageVisibility ps.visibility (p, false)).map (stageBools ps)

/-- Outcome of the save phase of `update_project_settings`
(lines 311-320). -/
inductive SaveResult
  /-- `changes` stayed false: log and return, no remote write -/
  | noChanges
  /-- `project.save()` raised: logged and swallowed -/
  | saveFailed
  /-- `project.save()` succeeded -/
  | saved
  deriving DecidableEq

/-- `update_project_settings` (lines 275-320): stage each recognized,
non-`None` setting (the visibility branch raises `KeyError` on a `None`
or unknown value), then call `project.save()` only when something was
staged; a raising save is logged and swallowed. `saveOk` is the outcome
of the remote write. Returns the in-memory project and what the save
phase did. -/
def update_project_settings (saveOk : Bool) (ps : ProjectSettings)
    (p : Project) : Except Unit (Project × SaveResult) :=
  (stageSettings ps p).map (fun st =>
    if st.2 = false then (st.1, SaveResult.noChanges)
    else if saveOk then (st.1, SaveResult.saved)
    else (st.1, SaveResult.saveFailed))

theorem stageBools_visibility (ps : ProjectSettings) (st : Project × Bool) :
    (stageBools ps st).1.visibility_level = st.1.visibility_level := by
  obtain ⟨p, c⟩ := st
  cases hi : ps.issues <;> cases hm : ps.merge_requests <;>
    cases hw : ps.wiki <;> cases hn : ps.snippets <;>
      simp only [stageBools, stageBool, hi, hm, hw, hn] <;>
        (repeat' split) <;> rfl

theorem stageBools_issues (ps : ProjectSettings) (st : Project × Bool)
    {b : Bool} (hb : ps.issues = Option.some b) :
    (stageBools ps st).1.issues_enabled = b := by
  obtain ⟨p, c⟩ := st
  cases hm : ps.merge_requests <;> cases hw : ps.wiki <;>
    cases hn : ps.snippets <;>
      simp only [stageBools, stageBool, hb, hm, hw, hn] <;>
        (repeat' split) <;> simp_all

theorem stageBools_merge_requests (ps : ProjectSettings)
    (st : Project × Bool) {b : Bool}
    (hb : ps.merge_requests = Option.some b) :
    (stageBools ps st).1.merge_requests_enabled = b := by
  obtain ⟨p, c⟩ := st
  cases hi : ps.issues <;> cases hw : ps.wiki <;> cases hn : ps.snippets <;>
    simp only [stageBools, stageBool, hb, hi, hw, hn] <;>
      (repeat' split) <;> simp_all

theorem stageBools_wiki (ps : ProjectSettings) (st : Project × Bool)
    {b : Bool} (hb : ps.wiki = Option.some b) :
    (stageBools ps st).1.wiki_enabled = b := by
  obtain ⟨p, c⟩ := st
  cases hi : ps.issues <;> cases hm : ps.merge_requests <;>
    cases hn : ps.snippets <;>
      simp only [stageBools, stageBool, hb, hi, hm, hn] <;>
        (repeat' split) <;> simp_all

theorem stageBools_snippets (ps : ProjectSettings) (st : Project × Bool)
    {b : Bool} (hb : ps.snippets = Option.some b) :
    (stageBools ps st).1.snippets_enabled = b := by
  obtain ⟨p, c⟩ := st
  cases hi : ps.issues <;> cases hm : ps.merge_requests <;>
    cases hw : ps.wiki <;>
      simp only [stageBools, stageBool, hb, hi, hm, hw] <;>
        (repeat' split) <;> simp_all

theorem stageBools_noop (ps : ProjectSettings) (p : Project) (c : Bool)
    (h1 : ∀ b, ps.issues = Option.some b → p.issues_enabled = b)
    (h2 : ∀ b, ps.merge_requests = Option.some b →
      p.merge_requests_enabled = b)
    (h3 : ∀ b, ps.wiki = Option.some b → p.wiki_enabled = b)
    (h4 : ∀ b, ps.snippets = Option.some b → p.snippets_enabled = b) :
    stageBools ps (p, c) = (p, c) := by
  cases hi : ps.issues <;> cases hm : ps.merge_requests <;>
    cases hw : ps.wiki <;> cases hn : ps.snippets <;>
      simp_all [stageBools, stageBool]

theorem stageVisibility_inv {v : Option String} {p : Project} {c : Bool}
    {st : Project × Bool}
    (h : stageVisibility v (p, c) = Except.ok st) :
    ∃ s lvl, v = Option.some s ∧ VISIBILITY_LEVELS s = Option.some lvl ∧
      st.1.visibility_level = lvl := by
  cases v with
  | none => exact absurd h (by simp [stageVisibility])
  | some s =>
      cases hl : VISIBILITY_LEVELS s with
      | none => simp [stageVisibility, hl] at h
      | some lvl =>
          refine ⟨s, lvl, rfl, hl, ?_⟩
          simp only [stageVisibility, hl] at h
          split at h
          · cases h
            exact eq_of_beq (by assumption)
          · cases h
            rfl

theorem stageVisibility_noop {s : String} {lvl : Nat} {p : Project}
    {c : Bool} (hl : VISIBILITY_LEVELS s = Option.some lvl)
    (hp : p.visibility_level = lvl) :
    stageVisibility (Option.some s) (p, c) = Except.ok (p, c) := by
  simp [stageVisibility, hl, hp]

theorem stageSettings_idem {ps : ProjectSettings} {p p2 : Project} {c : Bool}
    (h : stageSettings ps p = Except.ok (p2, c)) :
    stageSettings ps p2 = Except.ok (p2, false) := by
  cases hv : stageVisibility ps.visibility (p, false) with
  | error e =>
      rw [stageSettings, hv] at h
      exact absurd h (by simp [Except.map])
  | ok st =>
      have hchain : stageBools ps st = (p2, c) := by
        rw [stageSettings, hv] at h
        simpa [Except.map] using h
      obtain ⟨s, lvl, hs, hl, hst⟩ := stageVisibility_inv hv
      have hvlvl : p2.visibility_level = lvl := by
        have hpres := stageBools_visibility ps st
        rw [hchain] at hpres
        rw [← hpres] at hst
        exact hst
      rw [stageSettings, hs, stageVisibility_noop hl hvlvl]
      show Except.ok (stageBools ps (p2, false)) = Except.ok (p2, false)
      rw [stageBools_noop ps p2 false
        (fun b hb => by
          have hx := stageBools_issues ps st hb
          rw [hchain] at hx; exact hx)
        (fun b hb => by
          have hx := stageBools_merge_requests ps st hb
          rw [hchain] at hx; exact hx)
        (fun b hb => by
          have hx := stageBools_wiki ps st hb
          rw [hchain] at hx; exact hx)
        (fun b hb => by
          have hx := stageBools_snippets ps st hb
          rw [hchain] at hx; exact hx)]

/-- C4: settings reconciliation is idempotent - if a first call of
`update_project_settings` stages its changes and the save succeeds, a
second call with the same target values on the resulting project state
stages nothing and performs no remote write (`SaveResult.noChanges`). -/
theorem update_settings_idempotent {ps : ProjectSettings} {p p2 : Project}
    {r : SaveResult}
    (h : update_project_settings true ps p = Except.ok (p2, r)) :
    update_project_settings true ps p2
      = Except.ok (p2, SaveResult.noChanges) := by
  cases hs : stageSettings ps p with
  | error e =>
      rw [update_project_settings, hs] at h
      exact absurd h (by simp [Except.map])
  | ok st =>
      obtain ⟨q, ch⟩ := st
      have hq : q = p2 := by
        rw [update_project_settings, hs] at h
        by_cases hch : ch = false <;> simp [Except.map, hch] at h <;>
          exact h.1
      subst hq
      rw [update_project_settings, stageSettings_idem hs]
      rfl

/-- C4 witness: importing a project at visibility `internal` with issues
disabled, targets `private` and issues enabled: the first call stages
both and saves; the second call on the resulting state writes nothing. -/
theorem update_settings_idempotent_witness :
    update_project_settings true
        ⟨Option.some "private", Option.some true, Option.some false,
          Option.none, Option.none⟩
        ⟨0, true, false, true, true⟩
      = Except.ok (⟨0, true, false, true, true⟩, SaveResult.noChanges) :=
  update_settings_idempotent
    (p := ⟨10, false, false, true, true⟩)
    (by rfl)

/-- C2, counterexample: with the default settings dict of `parse_args`
(no `--visibility` given, so `visibility` maps to `None`),
`update_project_settings` raises `KeyError` instead of doing nothing:
line 292 evaluates `VISIBILITY_LEVELS[None]` before any `None` check. -/
theorem update_settings_crashes_on_none_visibility :
    update_project_settings true
        ⟨Option.none, Option.none, Option.none, Option.none, Option.none⟩
        ⟨0, true, true, true, true⟩
      = Except.error () := by rfl

/-- The external outcomes a single `do_repo` call can observe:
`destExists` is `os.path.exists(dest_path)` before the copy (line 199,
with `dest_path` as computed by `dest_path_of`), `copyOk` says the
`shutil.copytree` call and the `os.chown` walk raise nothing,
`hooksExist` is `os.path.exists(dest/hooks)` after the copy, `moveOk`
says `shutil.move` raises nothing, `destExistsOnFail` is the existence
test in the except branch (line 229), `importOk` is the `gitlab-rake`
exit status, `projectFound` the API lookup, `saveOk` the outcome of
`project.save()`. -/
structure RepoEnv where
  destExists : Bool
  copyOk : Bool
  hooksExist : Bool
  moveOk : Bool
  destExistsOnFail : Bool
  importOk : Bool
  projectFound : Option Project
  saveOk : Bool
  deriving DecidableEq

/-- The side effects one `do_repo` call performed. -/
structure DoRepoTrace where
  copyAttempted : Bool
  hooksRenamed : Bool
  destRemoved : Bool
  importRun : Bool
  projectFetched : Bool
  saveAttempted : Bool
  deriving DecidableEq

/-- The trace of a call that did nothing. -/
def emptyTrace : DoRepoTrace := ⟨false, false, false, false, false, false⟩

/-- `do_repo` (lines 189-249): fail fast on a destination collision; copy
and chown inside a try block (swallowing exceptions into a bare `return`,
that is Python `None`, after an optional cleanup); rename `hooks` when
migration is on and the directory exists; then run the import command,
fetch the project and reconcile settings. The settings `KeyError`
(`Except.error`) is NOT caught and aborts the whole run. Returns the
trace of effects and the Python return value. -/
def do_repo (env : RepoEnv) (remove_on_fail migrate_hooks : Bool)
    (ps : ProjectSettings) : DoRepoTrace × Except Unit (Option Bool) :=
  if env.destExists then (emptyTrace, Except.ok (Option.some false))
  else
    let t1 : DoRepoTrace := { emptyTrace with copyAttempted := true }
    if !env.copyOk then
      ({ t1 with destRemoved := remove_on_fail && env.destExistsOnFail },
        Except.ok Option.none)
    else if migrate_hooks && env.hooksExist && !env.moveOk then
      ({ t1 with destRemoved := remove_on_fail && env.destExistsOnFail },
        Except.ok Option.none)
    else
      let t2 := { t1 with
        hooksRenamed := migrate_hooks && env.hooksExist,
        importRun := true }
      if !env.importOk then (t2, Except.ok (Option.some false))
      else
        let t3 := { t2 with projectFetched := true }
        match env.projectFound with
        | Option.none => (t3, Except.ok (Option.some false))
        | Option.some proj =>
            match update_project_settings env.saveOk ps proj with
            | Except.error e => (t3, Except.error e)
            | Except.ok (_, r) =>
                ({ t3 with saveAttempted := r != SaveResult.noChanges },
                  Except.ok (Option.some true))

/-- C7: when the computed destination path already exists before the
copy, `do_repo` returns failure and performs nothing: no copy, no hook
rename, no removal, no import command, no API fetch and no save, so the
filesystem and the remote are untouched for that repo. -/
theorem do_repo_dest_collision (env : RepoEnv)
    (remove_on_fail migrate_hooks : Bool) (ps : ProjectSettings)
    (h : env.destExists = true) :
    do_repo env remove_on_fail migrate_hooks ps
      = (emptyTrace, Except.ok (Option.some false)) := by
  simp [do_repo, h]

/-- C7 witness: a collision environment where every later stage would
have succeeded still yields failure with an empty trace. -/
theorem do_repo_dest_collision_witness :
    do_repo
        ⟨true, true, true, true, false, true,
          Option.some ⟨0, true, true, true, true⟩, true⟩ false true
        ⟨Option.some "private", Option.none, Option.none, Option.none,
          Option.none⟩
      = (emptyTrace, Except.ok (Option.some false)) :=
  do_repo_dest_collision _ false true _ rfl

/-- C8: with hook migration enabled and a clean copy, the `hooks`
directory is renamed if and only if it exists at the destination after
the copy; when it does not exist nothing is renamed. -/
theorem do_repo_hook_migration (env : RepoEnv) (remove_on_fail : Bool)
    (ps : ProjectSettings) (h1 : env.destExists = false)
    (h2 : env.copyOk = true) (h3 : env.moveOk = true) :
    (do_repo env remove_on_fail true ps).1.hooksRenamed
      = env.hooksExist := by
  cases hpf : env.projectFound with
  | none =>
      cases hh : env.hooksExist <;> cases hio : env.importOk <;>
        simp_all [do_repo, emptyTrace]
  | some proj =>
      cases hu : update_project_settings env.saveOk ps proj with
      | error e =>
          cases hh : env.hooksExist <;> cases hio : env.importOk <;>
            simp_all [do_repo, emptyTrace]
      | ok pr =>
          obtain ⟨p2, r⟩ := pr
          cases hh : env.hooksExist <;> cases hio : env.importOk <;>
            simp_all [do_repo, emptyTrace]

/-- C8 witness: hooks exist at the destination, so they are renamed. -/
theorem do_repo_hook_migration_witness :
    (do_repo ⟨false, true, true, true, false, true, Option.none, true⟩
        false true
        ⟨Option.some "public", Option.none, Option.none, Option.none,
          Option.none⟩).1.hooksRenamed
      = RepoEnv.hooksExist
          ⟨false, true, true, true, false, true, Option.none, true⟩ :=
  do_repo_hook_migration _ false _ rfl rfl rfl

/-- C3, counterexample: everything succeeds except `project.save()`
(`saveOk = false`, and the trace shows a save was attempted): `do_repo`
still returns `True`, so the repo is counted as succeeded in the final
tally, not failed - `do_repo` ignores the `None` that
`update_project_settings` returns from its swallowed exception handler. -/
theorem do_repo_save_failure_counted_success :
    do_repo
        ⟨false, true, false, true, false, true,
          Option.some ⟨10, true, true, true, true⟩, false⟩ false true
        ⟨Option.some "private", Option.none, Option.none, Option.none,
          Option.none⟩
      = ({ emptyTrace with
            copyAttempted := true
            importRun := true
            projectFetched := true
            saveAttempted := true },
          Except.ok (Option.some true)) := by rfl

/-- C3 (amended): a failing settings save is swallowed and does not abort
the run - `do_repo` does not even see it: whenever a save was attempted
and the remote write failed, `do_repo` still returns `True`, which the
run loop counts as succeeded (not failed). -/
theorem do_repo_save_failure_still_success (env : RepoEnv)
    (remove_on_fail migrate_hooks : Bool) (ps : ProjectSettings)
    (hsv : env.saveOk = false)
    (h : (do_repo env remove_on_fail migrate_hooks ps).1.saveAttempted
      = true) :
    (do_repo env remove_on_fail migrate_hooks ps).2
        = Except.ok (Option.some true) ∧
      pyTruthy (Option.some true) = true := by
  refine ⟨?_, rfl⟩
  cases hpf : env.projectFound with
  | none =>
      cases hd : env.destExists <;> cases hc : env.copyOk <;>
        cases hh : env.hooksExist <;> cases hm : env.moveOk <;>
          cases hio : env.importOk <;> cases migrate_hooks <;>
            simp_all [do_repo, emptyTrace]
  | some proj =>
      cases hu : update_project_settings env.saveOk ps proj with
      | error e =>
          cases hd : env.destExists <;> cases hc : env.copyOk <;>
            cases hh : env.hooksExist <;> cases hm : env.moveOk <;>
              cases hio : env.importOk <;> cases migrate_hooks <;>
                simp_all [do_repo, emptyTrace]
      | ok pr =>
          obtain ⟨p2, r⟩ := pr
          cases hd : env.destExists <;> cases hc : env.copyOk <;>
            cases hh : env.hooksExist <;> cases hm : env.moveOk <;>
              cases hio : env.importOk <;> cases migrate_hooks <;>
                simp_all [do_repo, emptyTrace]

/-- C3 witness: the concrete failing-save environment, where `do_repo`
reports success. -/
theorem do_repo_save_failure_still_success_witness :
    (do_repo
        ⟨false, true, false, true, false, true,
          Option.some ⟨10, true, true, true, true⟩, false⟩ false true
        ⟨Option.some "private", Option.none, Option.none, Option.none,
          Option.none⟩).2
        = Except.ok (Option.some true) ∧
      pyTruthy (Option.some true) = true :=
  do_repo_save_failure_still_success _ false true _ rfl (by rfl)

end GitlabRepoImport
